import Mathlib

/-!
Verification of the Time Range & Interval Computation engine
(`rangeutil.ts`): a shallow embedding of the module's data model and
operations, followed by theorems settling the specification claims.

Modelling conventions:
* JS numbers are modelled by `ℚ` (exact rationals); the claims under
  scrutiny never depend on IEEE-754 rounding.  Millisecond instants are
  modelled by `Int`.
* JS `NaN` flowing through `parseInt`/arithmetic is modelled with
  `Option` (`none` = NaN).
* Functions that `throw` are modelled with `Except String`.
* JS string builtins (`Number(...)`, `parseInt(..., 10)`, `indexOf`,
  regexes) are modelled explicitly over `List Char`; the regex models
  implement the exact leftmost-match-with-backtracking behaviour of the
  two patterns appearing in the source.
-/

/-- JS whitespace characters recognised by `Number`/`parseInt` trimming
(the ASCII ones; exotic Unicode space characters never reach this
module). -/
def isJsWhitespace (c : Char) : Bool :=
  c = ' ' || c = '\t' || c = '\n' || c = '\r' || c = '\x0b' || c = '\x0c'

/-- Numeric value of a decimal digit character. -/
def digitVal (c : Char) : Nat := c.toNat - '0'.toNat

/-- Value of a decimal digit run (most significant first). -/
def digitsToNat (ds : List Char) : Nat :=
  ds.foldl (fun a c => a * 10 + digitVal c) 0

/-- Hexadecimal digit test. -/
def isHexDigit (c : Char) : Bool :=
  c.isDigit || ('a' ≤ c && c ≤ 'f') || ('A' ≤ c && c ≤ 'F')

/-- Numeric value of a hexadecimal digit character. -/
def hexDigitVal (c : Char) : Nat :=
  if c.isDigit then c.toNat - '0'.toNat
  else if 'a' ≤ c && c ≤ 'f' then c.toNat - 'a'.toNat + 10
  else c.toNat - 'A'.toNat + 10

/-- Value of a digit run in a given base. -/
def digitsToNatBase (base : Nat) (val : Char → Nat) (ds : List Char) : Nat :=
  ds.foldl (fun a c => a * base + val c) 0

/-- Decidable equality for `Except` results. -/
instance {ε α : Type} [DecidableEq ε] [DecidableEq α] : DecidableEq (Except ε α)
  | .error e, .error f =>
    if h : e = f then .isTrue (by rw [h]) else .isFalse (by intro hh; cases hh; exact h rfl)
  | .error _, .ok _ => .isFalse (by intro hh; cases hh)
  | .ok _, .error _ => .isFalse (by intro hh; cases hh)
  | .ok a, .ok b =>
    if h : a = b then .isTrue (by rw [h]) else .isFalse (by intro hh; cases hh; exact h rfl)

/-!  Rational arithmetic, routed through `mkRat` so that every
operation reduces inside the kernel (the builtin `Rat.add`/`Rat.mul`/…
are compiler intrinsics the kernel cannot unfold).  `ratAdd_eq` etc.
below prove them equal to the ordinary field operations on `ℚ`. -/

/-- Kernel-reducible rational addition. -/
def ratAdd (a b : ℚ) : ℚ := mkRat (a.num * b.den + a.den * b.num) (a.den * b.den)

/-- Kernel-reducible rational subtraction. -/
def ratSub (a b : ℚ) : ℚ := mkRat (a.num * b.den - a.den * b.num) (a.den * b.den)

/-- Kernel-reducible rational multiplication. -/
def ratMul (a b : ℚ) : ℚ := mkRat (a.num * b.num) (a.den * b.den)

/-- Kernel-reducible rational inverse. -/
def ratInv (b : ℚ) : ℚ :=
  if 0 ≤ b.num then mkRat b.den b.num.toNat
  else mkRat (-(b.den : Int)) (-b.num).toNat

/-- Kernel-reducible rational division. -/
def ratDiv (a b : ℚ) : ℚ := ratMul a (ratInv b)

/-- `10 ^ n` as a rational (kernel-friendly: computed in `Nat`). -/
def pow10 (n : Nat) : ℚ := ((10 ^ n : Nat) : ℚ)

/-- `10 ^ e` for a signed exponent. -/
def zpow10 (e : Int) : ℚ :=
  if 0 ≤ e then pow10 e.toNat else ratInv (pow10 (-e).toNat)

/-- `s.indexOf(pre) === 0` / `s.startsWith(pre)` (kernel-friendly). -/
def strStartsWith (s pre : String) : Bool := pre.data.isPrefixOf s.data

/-- `Math.floor` on a rational (denominators are positive, so floor
division of numerator by denominator). -/
def ratFloor (q : ℚ) : Int := Int.fdiv q.num q.den

/-- Decimal digit character of a value below 10. -/
def digitChar (n : Nat) : Char := Char.ofNat (48 + n)

/-- Decimal print of a `Nat` (fuel-based so the kernel can reduce it). -/
def natToChars (n : Nat) : List Char := go n n []
where
  go : Nat → Nat → List Char → List Char
    | 0, n, acc => digitChar (n % 10) :: acc
    | fuel + 1, n, acc =>
      if n < 10 then digitChar n :: acc
      else go fuel (n / 10) (digitChar (n % 10) :: acc)

/-- JS `String(n)` for an integral number. -/
def jsIntToString (i : Int) : String :=
  if i < 0 then String.mk ('-' :: natToChars (-i).toNat)
  else String.mk (natToChars i.toNat)

/-- Result of JS `Number(string)`: NaN, a signed infinity, or a finite
value (modelled exactly as a rational). -/
inductive JSNumber where
  | nan : JSNumber
  | inf (neg : Bool) : JSNumber
  | fin (q : ℚ) : JSNumber
deriving DecidableEq

/-- Parse the exponent suffix of a decimal numeral (`e`/`E`, optional
sign, digits); the whole rest of the string must be consumed. -/
def parseExpSuffix : List Char → Option Int
  | [] => some 0
  | 'e' :: r => parseExpSuffixSigned r
  | 'E' :: r => parseExpSuffixSigned r
  | _ => none
where
  parseExpSuffixSigned : List Char → Option Int
    | '+' :: r => parseExpDigits r
    | '-' :: r => (parseExpDigits r).map (fun n => -n)
    | r => parseExpDigits r
  parseExpDigits (r : List Char) : Option Int :=
    let ds := r.takeWhile (·.isDigit)
    if ds.isEmpty then none
    else if (r.drop ds.length).isEmpty then some (digitsToNat ds) else none

/-- Parse the body of a decimal numeral (after any sign):
`digits [. digits] [exp]` or `. digits [exp]`. -/
def parseDecBody (cs : List Char) : Option ℚ :=
  let ip := cs.takeWhile (·.isDigit)
  let r1 := cs.drop ip.length
  let withFrac : Option (List Char × List Char) :=
    match r1 with
    | '.' :: r2 =>
      let fp := r2.takeWhile (·.isDigit)
      if ip.isEmpty && fp.isEmpty then none else some (fp, r2.drop fp.length)
    | _ => if ip.isEmpty then none else some ([], r1)
  match withFrac with
  | none => none
  | some (fp, r3) =>
    match parseExpSuffix r3 with
    | none => none
    | some e =>
      some (ratMul (ratAdd (digitsToNat ip : ℚ) (ratDiv (digitsToNat fp : ℚ) (pow10 fp.length))) (zpow10 e))

/-- Model of JS `Number(str)` (string-to-number coercion): trim
whitespace, empty means 0, unsigned non-decimal literals (`0x`, `0o`,
`0b`), otherwise optional sign followed by `Infinity` or a decimal
numeral; anything else is NaN. -/
def jsStringToNumber (s : String) : JSNumber :=
  let cs := ((s.data.dropWhile isJsWhitespace).reverse.dropWhile isJsWhitespace).reverse
  match cs with
  | [] => .fin 0
  | '0' :: 'x' :: ds => jsNonDec 16 isHexDigit hexDigitVal ds
  | '0' :: 'X' :: ds => jsNonDec 16 isHexDigit hexDigitVal ds
  | '0' :: 'o' :: ds => jsNonDec 8 (fun c => '0' ≤ c && c ≤ '7') digitVal ds
  | '0' :: 'O' :: ds => jsNonDec 8 (fun c => '0' ≤ c && c ≤ '7') digitVal ds
  | '0' :: 'b' :: ds => jsNonDec 2 (fun c => c = '0' || c = '1') digitVal ds
  | '0' :: 'B' :: ds => jsNonDec 2 (fun c => c = '0' || c = '1') digitVal ds
  | _ =>
    let (neg, body) :=
      match cs with
      | '+' :: r => (false, r)
      | '-' :: r => (true, r)
      | r => (false, r)
    if body = "Infinity".data then .inf neg
    else
      match parseDecBody body with
      | some q => .fin (if neg then -q else q)
      | none => .nan
where
  jsNonDec (base : Nat) (ok : Char → Bool) (val : Char → Nat) (ds : List Char) : JSNumber :=
    if ds.isEmpty || !(ds.all ok) then .nan
    else .fin (digitsToNatBase base val ds)

/-- JS truthiness of a number (`if (Number(str))`): false for NaN and 0. -/
def jsTruthy : JSNumber → Bool
  | .nan => false
  | .inf _ => true
  | .fin q => q ≠ 0

/-- Model of JS `parseInt(str, 10)`: skip whitespace, optional sign,
leading decimal digit run; `none` models NaN (no digits). -/
def jsParseInt (s : String) : Option Int :=
  let cs := s.data.dropWhile isJsWhitespace
  let (neg, r) :=
    match cs with
    | '+' :: r => (false, r)
    | '-' :: r => (true, r)
    | r => (false, r)
  let ds := r.takeWhile (·.isDigit)
  if ds.isEmpty then none
  else some (if neg then -(digitsToNat ds : Int) else (digitsToNat ds : Int))

/-- `needle` occurs as a contiguous substring of `hay`
(models `hay.indexOf(needle) !== -1`). -/
def hasSub : List Char → List Char → Bool
  | [], needle => needle.isEmpty
  | c :: rest, needle => needle.isPrefixOf (c :: rest) || hasSub rest needle

/-- `s.indexOf(sub) !== -1` on strings. -/
def strContains (s sub : String) : Bool := hasSub s.data sub.data

/-!  ## roundInterval: the quantization ladder

`roundInterval` in the source is a `switch (true)` cascade of `interval
< threshold` tests; it is transcribed here as a first-match walk over
the `(threshold, rung)` pairs in source order, with the `default`
arm returning 31536000000 (1y). -/

/-- The `(threshold, rung)` pairs of `roundInterval`'s cascade, in
source order.  Comments give the source's own annotations. -/
def ladderSteps : List (ℚ × ℚ) :=
  [ (10, 1),                    -- 0.01s  → 0.001s
    (15, 10),                   -- 0.015s → 0.01s
    (35, 20),                   -- 0.035s → 0.02s
    (75, 50),                   -- 0.075s → 0.05s
    (150, 100),                 -- 0.15s  → 0.1s
    (350, 200),                 -- 0.35s  → 0.2s
    (750, 500),                 -- 0.75s  → 0.5s
    (1500, 1000),               -- 1.5s   → 1s
    (3500, 2000),               -- 3.5s   → 2s
    (7500, 5000),               -- 7.5s   → 5s
    (12500, 10000),             -- 12.5s  → 10s
    (17500, 15000),             -- 17.5s  → 15s
    (25000, 20000),             -- 25s    → 20s
    (45000, 30000),             -- 45s    → 30s
    (90000, 60000),             -- 1.5m   → 1m
    (210000, 120000),           -- 3.5m   → 2m
    (450000, 300000),           -- 7.5m   → 5m
    (750000, 600000),           -- 12.5m  → 10m
    (1050000, 900000),          -- 17.5m  → 15m
    (1500000, 1200000),         -- 25m    → 20m
    (2700000, 1800000),         -- 45m    → 30m
    (5400000, 3600000),         -- 1.5h   → 1h
    (9000000, 7200000),         -- 2.5h   → 2h
    (16200000, 10800000),       -- 4.5h   → 3h
    (32400000, 21600000),       -- 9h     → 6h
    (86400000, 43200000),       -- 1d     → 12h
    (604800000, 86400000),      -- 1w     → 1d
    (1814400000, 604800000),    -- 3w     → 1w
    (3628800000, 2592000000) ]  -- 6w     → 30d

/-- First-match walk of the cascade; the empty list is the `default`
arm (1 year in ms). -/
def roundIntervalAux : List (ℚ × ℚ) → ℚ → ℚ
  | [], _ => 31536000000
  | (t, v) :: rest, x => if x < t then v else roundIntervalAux rest x

/-- `roundInterval(interval)` from the source. -/
def roundInterval (interval : ℚ) : ℚ := roundIntervalAux ladderSteps interval

/-- The rung values that `roundInterval` can return, in cascade order
(29 bracket rungs plus the default arm). -/
def ladderValues : List ℚ := ladderSteps.map Prod.snd ++ [31536000000]

/-- Sample inputs hitting each bracket of the cascade in order. -/
def ladderSampleInputs : List ℚ :=
  [0, 10, 15, 35, 75, 150, 350, 750, 1500, 3500, 7500, 12500, 17500, 25000,
   45000, 90000, 210000, 450000, 750000, 1050000, 1500000, 2700000, 5400000,
   9000000, 16200000, 32400000, 86400000, 604800000, 1814400000, 3628800000]

/-!  ## Interval String Parser

`const interval_regex = /(-?\d+(?:\.\d+)?)(ms|[Mwdhmsy])/;` — an
unanchored pattern.  JS regex search scans start positions left to
right; at each position the greedy parse below is exactly equivalent to
the backtracking engine, because every character the engine could give
back (a digit or a dot) can never begin the unit group. -/

/-- The single-character unit alternatives `[Mwdhmsy]`. -/
def unitClassChars : List Char := ['M', 'w', 'd', 'h', 'm', 's', 'y']

/-- The unit group `(ms|[Mwdhmsy])`: try `ms` first, then the class. -/
def matchUnit (l : List Char) : Option String :=
  if l.take 2 = ['m', 's'] then some "ms"
  else
    match l.head? with
    | some c => if unitClassChars.contains c then some (String.mk [c]) else none
    | none => none

/-- The optional leading `-` of the magnitude group. -/
def splitSign : List Char → List Char × List Char
  | '-' :: r => (['-'], r)
  | cs => ([], cs)

/-- The optional fraction `(?:\.\d+)?` (greedy, needs at least one
digit after the dot). -/
def splitFrac (r2 : List Char) : List Char × List Char :=
  match r2 with
  | '.' :: r =>
    let fd := r.takeWhile (·.isDigit)
    if fd.isEmpty then ([], r2) else ('.' :: fd, r.drop fd.length)
  | _ => ([], r2)

/-- Try `interval_regex` at one start position; on success returns the
two capture groups (magnitude string, unit string). -/
def matchIntervalAt (cs : List Char) : Option (String × String) :=
  let (sgn, r1) := splitSign cs
  let ip := r1.takeWhile (·.isDigit)
  if ip.isEmpty then none
  else
    let (fr, r3) := splitFrac (r1.drop ip.length)
    match matchUnit r3 with
    | some u => some (String.mk (sgn ++ ip ++ fr), u)
    | none => none

/-- Leftmost match of `interval_regex` (models `str.match(...)`). -/
def findIntervalMatch (s : String) : Option (String × String) :=
  go s.data
where
  go : List Char → Option (String × String)
    | [] => none
    | c :: rest =>
      match matchIntervalAt (c :: rest) with
      | some r => some r
      | none => go rest

/-- `intervals_in_seconds`, in source (insertion) order. -/
def intervalsInSeconds : List (String × ℚ) :=
  [("y", 31536000), ("M", 2592000), ("w", 604800), ("d", 86400),
   ("h", 3600), ("m", 60), ("s", 1), ("ms", mkRat 1 1000)]

/-- The exact error message thrown for a malformed interval string
(`Object.keys(intervals_in_seconds).join(', ')`). -/
def invalidIntervalMsg : String :=
  "Invalid interval string, has to be either unit-less or end with one of the following units: \"y, M, w, d, h, m, s, ms\""

/-- `IntervalSpec {sec, type, count}`; `count` is `none` when the JS
value would be NaN (a `parseInt` failure). -/
structure IntervalSpec where
  sec : ℚ
  type : String
  count : Option Int
deriving DecidableEq

/-- `describeInterval(str)`.  The first branch is JS
`if (Number(str))` — a truthiness test, so NaN *and zero* fall through
to the regex branch. -/
def describeInterval (str : String) : Except String IntervalSpec :=
  if jsTruthy (jsStringToNumber str) then
    .ok ⟨1, "s", jsParseInt str⟩
  else
    match findIntervalMatch str with
    | none => .error invalidIntervalMsg
    | some (mag, unit) =>
      match intervalsInSeconds.lookup unit with
      | none => .error invalidIntervalMsg
      | some sec => .ok ⟨sec, unit, jsParseInt mag⟩

/-- `intervalToSeconds(str) = info.sec * info.count` (`none` = NaN). -/
def intervalToSeconds (str : String) : Except String (Option ℚ) :=
  (describeInterval str).map (fun info => info.count.map (fun c => ratMul info.sec (c : ℚ)))

/-- `intervalToMs(str) = info.sec * 1000 * info.count` (`none` = NaN). -/
def intervalToMs (str : String) : Except String (Option ℚ) :=
  (describeInterval str).map (fun info => info.count.map (fun c => ratMul (ratMul info.sec 1000) (c : ℚ)))

/-!  ## secondsToHms and calculateInterval -/

/-- Truncation toward zero (JS float-to-int behaviour of `n/d` inside
the `%` operator). -/
def ratTrunc (q : ℚ) : Int := q.num / q.den

/-- JS `%` remainder: `a - b * trunc(a / b)`. -/
def jsMod (a b : ℚ) : ℚ := ratSub a (ratMul b (ratTrunc (ratDiv a b) : ℚ))

/-- `secondsToHms(seconds)`: greedy single-unit label.  Each JS
`if (num…)` is a truthiness test on the floored component. -/
def secondsToHms (seconds : ℚ) : String :=
  let numYears := ratFloor (ratDiv seconds 31536000)
  if numYears ≠ 0 then jsIntToString numYears ++ "y"
  else
    let numDays := ratFloor (ratDiv (jsMod seconds 31536000) 86400)
    if numDays ≠ 0 then jsIntToString numDays ++ "d"
    else
      let numHours := ratFloor (ratDiv (jsMod (jsMod seconds 31536000) 86400) 3600)
      if numHours ≠ 0 then jsIntToString numHours ++ "h"
      else
        let numMinutes := ratFloor (ratDiv (jsMod (jsMod (jsMod seconds 31536000) 86400) 3600) 60)
        if numMinutes ≠ 0 then jsIntToString numMinutes ++ "m"
        else
          let numSeconds := ratFloor (jsMod (jsMod (jsMod (jsMod seconds 31536000) 86400) 3600) 60)
          if numSeconds ≠ 0 then jsIntToString numSeconds ++ "s"
          else
            let numMilliseconds := ratFloor (ratMul seconds 1000)
            if numMilliseconds ≠ 0 then jsIntToString numMilliseconds ++ "ms"
            else "less than a millisecond"

/-- `IntervalValues {intervalMs, interval}`. -/
structure IntervalValues where
  intervalMs : ℚ
  interval : String
deriving DecidableEq

/-- The `lowLimitMs` computation of `calculateInterval`: 1 ms default;
`if (lowLimitInterval)` is JS truthiness, so an absent or empty string
keeps the default, anything else goes through `intervalToMs` (which may
throw, or produce NaN = `none`). -/
def lowLimitMsOf : Option String → Except String (Option ℚ)
  | some s => if s = "" then .ok (some 1) else intervalToMs s
  | none => .ok (some 1)

/-- `calculateInterval(range, resolution, lowLimitInterval)`.  The
range is passed as its two resolved millisecond instants
(`range.from.valueOf()`, `range.to.valueOf()`).  A NaN lower bound
(`none`) fails the `lowLimitMs > intervalMs` test and is ignored. -/
def calculateInterval (fromMs toMs : ℚ) (resolution : ℚ)
    (lowLimitInterval : Option String) : Except String IntervalValues :=
  match lowLimitMsOf lowLimitInterval with
  | .error e => .error e
  | .ok lowLimitMs =>
    let intervalMs := roundInterval (ratDiv (ratSub toMs fromMs) resolution)
    let intervalMs2 :=
      match lowLimitMs with
      | some l => if l > intervalMs then l else intervalMs
      | none => intervalMs
    .ok ⟨intervalMs2, secondsToHms (ratDiv intervalMs2 1000)⟩

/-!  ## Expression Describer -/

/-- `spans`: unit key → display name (no entry carries a `section`). -/
def spans : List (String × String) :=
  [("s", "секунда"), ("m", "минута"), ("h", "час"), ("d", "ден"),
   ("w", "седмица"), ("M", "месец"), ("y", "година")]

/-- `TimeOption`: one preset table entry. -/
structure TimeOption where
  «from» : String
  «to» : String
  display : String
deriving DecidableEq

/-- `rangeOptions`: the user-visible preset table, in source order. -/
def rangeOptions : List TimeOption :=
  [ ⟨"now/d", "now/d", "Днес"⟩,
    ⟨"now/d", "now", "Досега днес"⟩,
    ⟨"now/w", "now/w", "Тази седмица"⟩,
    ⟨"now/w", "now", "Досега тази седмица"⟩,
    ⟨"now/M", "now/M", "Този месец"⟩,
    ⟨"now/M", "now", "Досега този месец"⟩,
    ⟨"now/y", "now/y", "Тази година"⟩,
    ⟨"now/y", "now", "Досега тази година"⟩,
    ⟨"now-1d/d", "now-1d/d", "Вчера"⟩,
    ⟨"now-2d/d", "now-2d/d", "Онзи ден"⟩,
    ⟨"now-7d/d", "now-7d/d", "Този ден предишната седмица"⟩,
    ⟨"now-1w/w", "now-1w/w", "Предишната седмица"⟩,
    ⟨"now-1M/M", "now-1M/M", "Предишният месец"⟩,
    ⟨"now-1Q/fQ", "now-1Q/fQ", "Предишната фискална четвърт"⟩,
    ⟨"now-1y/y", "now-1y/y", "Предишната година"⟩,
    ⟨"now-1y/fy", "now-1y/fy", "Предишната фискална година"⟩,
    ⟨"now-5m", "now", "Последните 5 минути"⟩,
    ⟨"now-15m", "now", "Последните 15 минути"⟩,
    ⟨"now-30m", "now", "Последните 30 минути"⟩,
    ⟨"now-1h", "now", "Последният час"⟩,
    ⟨"now-3h", "now", "Последните 3 часа"⟩,
    ⟨"now-6h", "now", "Последните 6 часа"⟩,
    ⟨"now-12h", "now", "Последните 12 часа"⟩,
    ⟨"now-24h", "now", "Последните 24 часа"⟩,
    ⟨"now-2d", "now", "Последните 2 дни"⟩,
    ⟨"now-7d", "now", "Последните 7 дни"⟩,
    ⟨"now-30d", "now", "Последните 30 дни"⟩,
    ⟨"now-90d", "now", "Последните 90 дни"⟩,
    ⟨"now-6M", "now", "Последните 6 месеца"⟩,
    ⟨"now-1y", "now", "Последната година"⟩,
    ⟨"now-2y", "now", "Последните 2 години"⟩,
    ⟨"now-5y", "now", "Последните 5 години"⟩,
    ⟨"now/fQ", "now", "Досега тази фискална четвърт"⟩,
    ⟨"now/fQ", "now/fQ", "Тази фискална четвърт"⟩,
    ⟨"now/fy", "now", "Досега тази фискална година"⟩,
    ⟨"now/fy", "now/fy", "Тази фискална година"⟩ ]

/-- `hiddenRangeOptions`: the hidden forward-looking preset table. -/
def hiddenRangeOptions : List TimeOption :=
  [ ⟨"now", "now+1m", "Следващата минута"⟩,
    ⟨"now", "now+5m", "Следващите 5 минути"⟩,
    ⟨"now", "now+15m", "Следващите 15 минути"⟩,
    ⟨"now", "now+30m", "Next 30 minutes"⟩,
    ⟨"now", "now+1h", "Следващият час"⟩,
    ⟨"now", "now+3h", "Следващите 3 часа"⟩,
    ⟨"now", "now+6h", "Следващите 6 часа"⟩,
    ⟨"now", "now+12h", "Следващите 12 часа"⟩,
    ⟨"now", "now+24h", "Следващите 24 часа"⟩,
    ⟨"now", "now+2d", "Следващите 2 дни"⟩,
    ⟨"now", "now+7d", "Следващите 7 дни"⟩,
    ⟨"now", "now+30d", "Следващите 30 дни"⟩,
    ⟨"now", "now+90d", "Следващите 90 дни"⟩,
    ⟨"now", "now+6M", "Следващите 6 месеца"⟩,
    ⟨"now", "now+1y", "Следващата година"⟩,
    ⟨"now", "now+2y", "Следващите 2 години"⟩,
    ⟨"now", "now+5y", "Следващите 5 години"⟩ ]

/-- `rangeIndex[key]`: both tables are written into one object keyed by
`"<from> to <to>"`, later assignments overriding earlier ones — hence
the lookup searches the reversed concatenation. -/
def rangeIndexFind (key : String) : Option TimeOption :=
  ((rangeOptions ++ hiddenRangeOptions).reverse).find?
    (fun frame => frame.«from» ++ " to " ++ frame.«to» == key)

/-- `DescribedOption`: result of `describeTextRange`.  `display` is
`none` where the JS object never receives a `display` key; `invalid`
is `false` where the JS `invalid` key is absent. -/
structure DescribedOption where
  «from» : String
  «to» : String
  display : Option String
  «section» : Option Nat
  invalid : Bool
deriving DecidableEq

/-- JS `\w` (ASCII word character). -/
def isWordChar (c : Char) : Bool := c.isAlpha || c.isDigit || c = '_'

/-- The anchored pattern `/^now([-+])(\d+)(\w)/` with the engine's
backtracking: the greedy digit run is preferred; if no word character
follows it, the engine gives back the last digit (itself a `\w`) to
serve as the unit — possible only when the run has at least two
digits.  Returns (sign, amount, unit). -/
def parseNowOffset (expr : String) : Option (Char × Nat × Char) :=
  match expr.data with
  | 'n' :: 'o' :: 'w' :: c :: rest =>
    if c = '-' || c = '+' then
      let ds := rest.takeWhile (·.isDigit)
      if ds.isEmpty then none
      else
        match rest.drop ds.length with
        | a :: _ =>
          if isWordChar a then some (c, digitsToNat ds, a)
          else backtrackLastDigit c ds
        | [] => backtrackLastDigit c ds
    else none
  | _ => none
where
  backtrackLastDigit (c : Char) (ds : List Char) : Option (Char × Nat × Char) :=
    match ds.reverse with
    | [] => none
    | [_] => none
    | last :: revInit => some (c, digitsToNat revInit.reverse, last)

/-- The normalization prefix step of `describeTextRange`: a token
without "now" becomes `"now-" + expr` (past) or `"now" + expr`
(future, leading `+`). -/
def normalizeTextRangeExpr (expr : String) : String :=
  let isLast := !strStartsWith expr "+"
  if strContains expr "now" then expr
  else (if isLast then "now-" else "now") ++ expr

/-- `describeTextRange(expr)`. -/
def describeTextRange (expr0 : String) : DescribedOption :=
  let isLast := !strStartsWith expr0 "+"
  let expr := normalizeTextRangeExpr expr0
  match rangeIndexFind (expr ++ " to now") with
  | some frame => ⟨frame.«from», frame.«to», some frame.display, none, false⟩
  | none =>
    let opt : DescribedOption :=
      if isLast then ⟨expr, "now", none, none, false⟩
      else ⟨"now", expr, none, none, false⟩
    match parseNowOffset expr with
    | some (_, amount, unit) =>
      match spans.lookup (String.mk [unit]) with
      | some spanDisplay =>
        ⟨opt.«from», opt.«to»,
         some ((if isLast then "Last " else "Next ") ++ String.mk (natToChars amount) ++ " " ++
           spanDisplay ++ (if amount > 1 then "s" else "")),
         none, false⟩
      | none => opt
    | none => ⟨opt.«from», opt.«to», some (opt.«from» ++ " to " ++ opt.«to»), opt.«section», true⟩

/-- `isValidTimeSpan(value)`. -/
def isValidTimeSpan (value : String) : Bool :=
  if strStartsWith value "$" || strStartsWith value "+$" then true
  else !(describeTextRange value).invalid

/-!  ## Relative/Absolute Converter

Instants (`DateTime`) are millisecond timestamps modelled by `Int`;
`unix()` is `Math.floor(ms / 1000)`. -/

/-- A resolved range's two millisecond instants. -/
structure MsTimeRange where
  «from» : Int
  «to» : Int
deriving DecidableEq

/-- `RelativeTimeRange {from, to}` in seconds before the reference. -/
structure RelativeTimeRange where
  «from» : Int
  «to» : Int
deriving DecidableEq

/-- moment's `unix()`: floor division of milliseconds by 1000. -/
def unixSeconds (ms : Int) : Int := Int.fdiv ms 1000

/-- `timeRangeToRelative(timeRange, now)`. -/
def timeRangeToRelative (timeRange : MsTimeRange) (now : Int) : RelativeTimeRange :=
  ⟨unixSeconds now - unixSeconds timeRange.«from»,
   unixSeconds now - unixSeconds timeRange.«to»⟩

/-- `relativeToTimeRange(relativeTimeRange, now)`: subtract seconds,
except that `to === 0` yields exactly `now`. -/
def relativeToTimeRange (rel : RelativeTimeRange) (now : Int) : MsTimeRange :=
  ⟨now - rel.«from» * 1000,
   if rel.«to» = 0 then now else now - rel.«to» * 1000⟩

/-!  ## Range Normalizer

`dateTimeParse` and `dateMath.isMathString` live in excluded
collaborator modules; `convertRawToRange` is parameterized over them
(the `timeZone`/`fiscalYearStartMonth` pass-through options are folded
into the injected parser). -/

/-- One side of a `RawTimeRange`: an absolute instant or an expression
string. -/
inductive RawTimeValue where
  | dt (ms : Int) : RawTimeValue
  | str (s : String) : RawTimeValue
deriving DecidableEq

/-- `RawTimeRange`. -/
structure RawTimeRange where
  «from» : RawTimeValue
  «to» : RawTimeValue
deriving DecidableEq

/-- `TimeRange {from, to, raw}` with resolved millisecond instants. -/
structure ResolvedTimeRange where
  «from» : Int
  «to» : Int
  raw : RawTimeRange
deriving DecidableEq

/-- `convertRawToRange(raw, ...)`: `parse v roundUp` models
`dateTimeParse(v, {roundUp, timeZone, fiscalYearStartMonth})`, `isMath`
models `dateMath.isMathString`. -/
def convertRawToRange (parse : RawTimeValue → Bool → Int)
    (isMath : RawTimeValue → Bool) (raw : RawTimeRange) : ResolvedTimeRange :=
  let «from» := parse raw.«from» false
  let «to» := parse raw.«to» true
  if isMath raw.«from» || isMath raw.«to» then ⟨«from», «to», raw⟩
  else ⟨«from», «to», ⟨.dt «from», .dt «to»⟩⟩

theorem roundIntervalAux_mem (l : List (ℚ × ℚ)) (x : ℚ) :
    roundIntervalAux l x ∈ l.map Prod.snd ++ [(31536000000 : ℚ)] := by
  induction l with
  | nil => simp [roundIntervalAux]
  | cons p rest ih =>
    obtain ⟨t, v⟩ := p
    by_cases h : x < t
    · simp [roundIntervalAux, h]
    · simp only [roundIntervalAux, h, if_false, List.map_cons, List.cons_append,
        List.mem_cons]
      exact Or.inr ih

theorem roundIntervalAux_mono (l : List (ℚ × ℚ))
    (hsort : (l.map Prod.snd ++ [(31536000000 : ℚ)]).Pairwise (· ≤ ·))
    {x y : ℚ} (hxy : x ≤ y) :
    roundIntervalAux l x ≤ roundIntervalAux l y := by
  induction l with
  | nil => simp [roundIntervalAux]
  | cons p rest ih =>
    obtain ⟨t, v⟩ := p
    simp only [List.map_cons, List.cons_append, List.pairwise_cons] at hsort
    obtain ⟨hhead, htail⟩ := hsort
    by_cases hx : x < t
    · by_cases hy : y < t
      · simp [roundIntervalAux, hx, hy]
      · simp only [roundIntervalAux, hx, hy, if_true, if_false]
        exact hhead _ (roundIntervalAux_mem rest y)
    · have hy : ¬ y < t := fun h => hx (lt_of_le_of_lt hxy h)
      simp only [roundIntervalAux, hx, hy, if_false]
      exact ih htail

/-!  ## Helper lemmas -/

theorem ratAdd_eq (a b : ℚ) : ratAdd a b = a + b := by
  have ha : (a.den : ℚ) ≠ 0 := by exact_mod_cast a.den_ne_zero
  have hb : (b.den : ℚ) ≠ 0 := by exact_mod_cast b.den_ne_zero
  rw [ratAdd, Rat.mkRat_eq_divInt, Rat.divInt_eq_div]
  push_cast
  conv_rhs => rw [← Rat.num_div_den a, ← Rat.num_div_den b]
  rw [div_add_div _ _ ha hb]

theorem ratSub_eq (a b : ℚ) : ratSub a b = a - b := by
  have ha : (a.den : ℚ) ≠ 0 := by exact_mod_cast a.den_ne_zero
  have hb : (b.den : ℚ) ≠ 0 := by exact_mod_cast b.den_ne_zero
  rw [ratSub, Rat.mkRat_eq_divInt, Rat.divInt_eq_div]
  push_cast
  conv_rhs => rw [← Rat.num_div_den a, ← Rat.num_div_den b]
  rw [div_sub_div _ _ ha hb]

theorem ratMul_eq (a b : ℚ) : ratMul a b = a * b := by
  rw [ratMul, Rat.mkRat_eq_divInt, Rat.divInt_eq_div]
  push_cast
  conv_rhs => rw [← Rat.num_div_den a, ← Rat.num_div_den b]
  rw [div_mul_div_comm]

theorem ratInv_eq (b : ℚ) : ratInv b = b⁻¹ := by
  rcases le_or_lt 0 b.num with h | h
  · rw [ratInv, if_pos h, Rat.mkRat_eq_divInt, Rat.divInt_eq_div]
    conv_rhs => rw [← Rat.num_div_den b]
    rw [inv_div]
    congr 1
    exact_mod_cast congrArg (fun i : Int => (i : ℚ)) (Int.toNat_of_nonneg h)
  · rw [ratInv, if_neg (not_le.mpr h), Rat.mkRat_eq_divInt, Rat.divInt_eq_div]
    conv_rhs => rw [← Rat.num_div_den b]
    rw [inv_div]
    have hnum : (((-b.num).toNat : Int) : ℚ) = ((-b.num : Int) : ℚ) := by
      exact_mod_cast congrArg (fun i : Int => (i : ℚ)) (Int.toNat_of_nonneg (by omega))
    push_cast at hnum ⊢
    rw [hnum]
    rw [div_neg, neg_div, neg_neg]

theorem ratDiv_eq (a b : ℚ) : ratDiv a b = a / b := by
  rw [ratDiv, ratMul_eq, ratInv_eq, div_eq_mul_inv]

theorem unixSeconds_eq (ms : Int) : unixSeconds ms = ms / 1000 :=
  Int.fdiv_eq_ediv ms (by norm_num)

theorem roundInterval_mem_ladderValues (x : ℚ) : roundInterval x ∈ ladderValues := by
  have := roundIntervalAux_mem ladderSteps x
  simpa [ladderValues, roundInterval] using this

theorem roundInterval_monotone {a b : ℚ} (hab : a ≤ b) :
    roundInterval a ≤ roundInterval b := by
  refine roundIntervalAux_mono ladderSteps ?_ hab
  decide

theorem matchUnit_lookup (l : List Char) (u : String) (h : matchUnit l = some u) :
    (intervalsInSeconds.lookup u).isSome = true := by
  unfold matchUnit at h
  split at h
  · cases h
    decide
  · cases hh : l.head? with
    | none => rw [hh] at h; cases h
    | some c =>
      rw [hh] at h
      dsimp only at h
      by_cases hc : unitClassChars.contains c = true
      · rw [if_pos hc] at h
        cases h
        have hmem : c ∈ unitClassChars := List.mem_of_elem_eq_true hc
        simp only [unitClassChars, List.mem_cons, List.not_mem_nil, or_false] at hmem
        rcases hmem with rfl | rfl | rfl | rfl | rfl | rfl | rfl <;> decide
      · rw [if_neg hc] at h
        cases h

theorem matchIntervalAt_unit (cs : List Char) (m u : String)
    (h : matchIntervalAt cs = some (m, u)) :
    (intervalsInSeconds.lookup u).isSome = true := by
  unfold matchIntervalAt at h
  rcases hs : splitSign cs with ⟨sgn, r1⟩
  rw [hs] at h
  dsimp only at h
  by_cases hip : (r1.takeWhile (·.isDigit)).isEmpty = true
  · rw [if_pos hip] at h
    cases h
  · rw [if_neg hip] at h
    rcases hf : splitFrac (r1.drop (r1.takeWhile (·.isDigit)).length) with ⟨fr, r3⟩
    rw [hf] at h
    dsimp only at h
    cases hm : matchUnit r3 with
    | some u2 =>
      rw [hm] at h
      cases h
      exact matchUnit_lookup _ _ hm
    | none =>
      rw [hm] at h
      cases h

theorem findIntervalMatchGo_unit :
    ∀ (cs : List Char) (m u : String), findIntervalMatch.go cs = some (m, u) →
      (intervalsInSeconds.lookup u).isSome = true
  | [], m, u, h => by simp [findIntervalMatch.go] at h
  | c :: rest, m, u, h => by
    rw [findIntervalMatch.go] at h
    cases hm : matchIntervalAt (c :: rest) with
    | some r =>
      rw [hm] at h
      cases h
      exact matchIntervalAt_unit _ _ _ hm
    | none =>
      rw [hm] at h
      exact findIntervalMatchGo_unit rest m u h

theorem findIntervalMatch_unit (s : String) (m u : String)
    (h : findIntervalMatch s = some (m, u)) :
    (intervalsInSeconds.lookup u).isSome = true := by
  unfold findIntervalMatch at h
  exact findIntervalMatchGo_unit s.data m u h

theorem describeTextRange_invalid_iff (expr : String) :
    (describeTextRange expr).invalid = true ↔
      (rangeIndexFind (normalizeTextRangeExpr expr ++ " to now") = none ∧
       parseNowOffset (normalizeTextRangeExpr expr) = none) := by
  unfold describeTextRange
  cases h1 : rangeIndexFind (normalizeTextRangeExpr expr ++ " to now") with
  | some frame => simp [h1]
  | none =>
    cases h2 : parseNowOffset (normalizeTextRangeExpr expr) with
    | some p =>
      obtain ⟨sg, am, un⟩ := p
      cases h3 : spans.lookup (String.mk [un]) with
      | some sp => simp [h1, h2, h3]
      | none =>
        simp only [h1, h2, h3]
        constructor
        · intro hbad
          split at hbad <;> simp_all
        · rintro ⟨-, hbad⟩
          cases hbad
    | none => simp [h1, h2]

theorem describeTextRange_invalid_display (expr : String)
    (h : (describeTextRange expr).invalid = true) :
    (describeTextRange expr).display =
      some ((describeTextRange expr).«from» ++ " to " ++ (describeTextRange expr).«to») := by
  obtain ⟨h1, h2⟩ := (describeTextRange_invalid_iff expr).mp h
  simp only [describeTextRange, h1, h2]

/-!  ## Claim theorems -/

/-- C1 (counterexample): the claim asserts `roundInterval(14999) = 10000`,
but the source's bracket for the 10s rung ends at 12500 (`// 12.5s`), so
14999 falls in the 15s bracket and returns 15000. -/
theorem C1_counterexample : roundInterval 14999 = 15000 ∧ roundInterval 14999 ≠ 10000 := by
  decide

/-- C1 (amended): the documented boundary values of `roundInterval`,
with the 10s rung's upper threshold corrected to 12500:
`roundInterval(9) = 1`, `roundInterval(10) = 10`,
`roundInterval(12499) = 10000`, `roundInterval(14999) = 15000`,
`roundInterval(15000) = 15000`. -/
theorem C1_roundInterval_boundaries :
    roundInterval 9 = 1 ∧ roundInterval 10 = 10 ∧ roundInterval 12499 = 10000 ∧
    roundInterval 14999 = 15000 ∧ roundInterval 15000 = 15000 := by
  decide

/-- C2 (counterexample): the hidden forward preset
`{from: now, to: now+5m, display: "Следващите 5 минути"}` is in the
tables and indexed under `"now to now+5m"`, but `describeTextRange` on
its canonical normalized token `"+5m"` never performs the symmetric
`"now to <normalized>"` lookup: it looks up `"now+5m to now"`, misses,
and decomposes to the generic `"Next 5 минутаs"` display instead of the
preset's display string. -/
theorem C2_counterexample :
    (⟨"now", "now+5m", "Следващите 5 минути"⟩ ∈ hiddenRangeOptions) ∧
    rangeIndexFind "now to now+5m" = some ⟨"now", "now+5m", "Следващите 5 минути"⟩ ∧
    describeTextRange "+5m" = ⟨"now", "now+5m", some "Next 5 минутаs", none, false⟩ := by
  decide

/-- C2 (amended): for every entry of the combined visible and hidden
preset tables whose `to` side is the token `"now"`, `describeTextRange`
applied to the entry's `from` token returns exactly that entry's
display string (the only lookup key ever built is
`"<normalized> to now"`). -/
theorem C2_preset_describe :
    ∀ e ∈ rangeOptions ++ hiddenRangeOptions,
      e.«to» = "now" → (describeTextRange e.«from»).display = some e.display := by
  decide

theorem C2_witness :
    (describeTextRange "now-5m").display = some "Последните 5 минути" :=
  C2_preset_describe ⟨"now-5m", "now", "Последните 5 минути"⟩ (by decide) (by decide)

/-- C3 (counterexample): the round trip loses sub-second precision —
`unix()` floors milliseconds to seconds, so for the resolved range
`{from: 0ms, to: 1500ms}` and reference instant 1500ms the recovered
range is `{from: 500ms, to: 1500ms}`, not the original. -/
theorem C3_counterexample :
    relativeToTimeRange (timeRangeToRelative ⟨0, 1500⟩ 1500) 1500 = ⟨500, 1500⟩ ∧
    (⟨500, 1500⟩ : MsTimeRange) ≠ ⟨0, 1500⟩ := by
  decide

/-- C3 (amended): for ranges and reference instants aligned to whole
seconds (millisecond values divisible by 1000), the round trip
`relativeToTimeRange(timeRangeToRelative(R, T), T)` reproduces `from`
and `to` exactly; and independently of any alignment, a relative `to`
of 0 maps to exactly the reference instant. -/
theorem C3_relative_roundtrip (f t now : Int)
    (hf : (1000 : Int) ∣ f) (ht : (1000 : Int) ∣ t) (hn : (1000 : Int) ∣ now) :
    relativeToTimeRange (timeRangeToRelative ⟨f, t⟩ now) now = ⟨f, t⟩ ∧
    (∀ rf : Int, (relativeToTimeRange ⟨rf, 0⟩ now).«to» = now) := by
  constructor
  · unfold relativeToTimeRange timeRangeToRelative
    simp only [unixSeconds_eq, MsTimeRange.mk.injEq]
    obtain ⟨a, rfl⟩ := hf
    obtain ⟨b, rfl⟩ := ht
    obtain ⟨c, rfl⟩ := hn
    refine ⟨by omega, ?_⟩
    split <;> omega
  · intro rf
    simp [relativeToTimeRange]

theorem C3_witness :
    relativeToTimeRange (timeRangeToRelative ⟨1000, 2000⟩ 3000) 3000 = ⟨1000, 2000⟩ ∧
    (relativeToTimeRange ⟨300, 0⟩ 3000).«to» = 3000 :=
  ⟨(C3_relative_roundtrip 1000 2000 3000 ⟨1, rfl⟩ ⟨2, rfl⟩ ⟨3, rfl⟩).1,
   (C3_relative_roundtrip 1000 2000 3000 ⟨1, rfl⟩ ⟨2, rfl⟩ ⟨3, rfl⟩).2 300⟩

/-- C9 (counterexample): `roundInterval`'s cascade attains 30 pairwise
distinct rung values (29 bracket rungs plus the default 1y rung), not
29: the 30 sample inputs below, one per bracket, map exactly onto the
30-element rung list, which is duplicate-free. -/
theorem C9_counterexample :
    ladderSampleInputs.length = 30 ∧
    ladderSampleInputs.map roundInterval = ladderValues ∧
    ladderValues.Nodup := by
  decide

/-- C9 (amended): `roundInterval` is monotone non-decreasing, its
output always lies in the fixed 30-value ladder, and every negative
input falls into the first bracket and returns 1. -/
theorem C9_roundInterval_shape :
    (∀ a b : ℚ, a ≤ b → roundInterval a ≤ roundInterval b) ∧
    (∀ x : ℚ, roundInterval x ∈ ladderValues) ∧
    (∀ x : ℚ, x < 0 → roundInterval x = 1) := by
  refine ⟨fun a b hab => roundInterval_monotone hab, roundInterval_mem_ladderValues, ?_⟩
  intro x hx
  have h10 : x < 10 := by linarith
  simp only [roundInterval, ladderSteps, roundIntervalAux, if_pos h10]

theorem C9_witness :
    roundInterval 5 ≤ roundInterval 100 ∧ roundInterval 42 ∈ ladderValues ∧
    roundInterval (-3) = 1 :=
  ⟨C9_roundInterval_shape.1 5 100 (by norm_num), C9_roundInterval_shape.2.1 42,
   C9_roundInterval_shape.2.2 (-3) (by norm_num)⟩

theorem intervalToSeconds_error_iff (s e : String) :
    intervalToSeconds s = .error e ↔ describeInterval s = .error e := by
  unfold intervalToSeconds
  cases h : describeInterval s <;> simp [h, Except.map]

theorem intervalToMs_error_iff (s e : String) :
    intervalToMs s = .error e ↔ describeInterval s = .error e := by
  unfold intervalToMs
  cases h : describeInterval s <;> simp [h, Except.map]

/-- C4 (counterexample): for the value `"5x"` the normalized token
`"now-5x"` misses the preset index and its unit `x` is outside
`{s,m,h,d,w,M,y}` — yet `describeTextRange` does *not* set
`invalid` (the `^now([-+])(\d+)(\w)` pattern matched, only the `spans`
lookup failed, and that branch sets nothing), so `isValidTimeSpan`
accepts the value.  This refutes the claimed characterization
"invalid exactly when neither a preset hit nor now±⟨int⟩⟨unit⟩ with a
known unit". -/
theorem C4_counterexample :
    rangeIndexFind "now-5x to now" = none ∧
    parseNowOffset "now-5x" = some ('-', 5, 'x') ∧
    spans.lookup "x" = none ∧
    (describeTextRange "5x").invalid = false ∧
    isValidTimeSpan "5x" = true := by
  decide

/-- C4 (amended): values starting with `$` or `+$` are unconditionally
valid; any other value is valid iff `describeTextRange` does not mark
it invalid; and `describeTextRange` sets `invalid` exactly when the
normalized token both misses the preset index and fails the *regex*
`now[-+]⟨digits⟩⟨word-char⟩` — membership of the unit in the `spans`
table is *not* required. -/
theorem C4_isValidTimeSpan :
    (∀ v : String, (strStartsWith v "$" || strStartsWith v "+$") = true →
      isValidTimeSpan v = true) ∧
    (∀ v : String, (strStartsWith v "$" || strStartsWith v "+$") = false →
      (isValidTimeSpan v = true ↔ (describeTextRange v).invalid = false)) ∧
    (∀ expr : String, (describeTextRange expr).invalid = true ↔
      (rangeIndexFind (normalizeTextRangeExpr expr ++ " to now") = none ∧
       parseNowOffset (normalizeTextRangeExpr expr) = none)) := by
  refine ⟨?_, ?_, describeTextRange_invalid_iff⟩
  · intro v hv
    simp [isValidTimeSpan, hv]
  · intro v hv
    simp [isValidTimeSpan, hv]

theorem C4_witness :
    isValidTimeSpan "$myVar" = true ∧
    (isValidTimeSpan "not-a-valid-expr!!" = true ↔
      (describeTextRange "not-a-valid-expr!!").invalid = false) ∧
    ((describeTextRange "now-3d").invalid = true ↔
      (rangeIndexFind (normalizeTextRangeExpr "now-3d" ++ " to now") = none ∧
       parseNowOffset (normalizeTextRangeExpr "now-3d") = none)) :=
  ⟨C4_isValidTimeSpan.1 "$myVar" (by decide),
   C4_isValidTimeSpan.2.1 "not-a-valid-expr!!" (by decide),
   C4_isValidTimeSpan.2.2 "now-3d"⟩

/-- C5 (counterexample): `"0"` parses as a pure number (`Number("0")`
is `0`), but `if (Number(str))` is a *truthiness* test, so `"0"` falls
through to the regex branch, finds no unit, and throws — instead of
returning `{sec:1, type:'s', count:0}` as the claim requires. -/
theorem C5_counterexample :
    jsStringToNumber "0" = .fin 0 ∧ describeInterval "0" = .error invalidIntervalMsg := by
  decide

/-- C5 (amended): for every string whose `Number()` parse is a finite
*nonzero* value, `describeInterval` returns unit seconds with
`count = parseInt(str)`; for `⟨number⟩⟨unit⟩` strings it returns the
canonical per-unit seconds (y=31536000, M=2592000, w=604800, d=86400,
h=3600, m=60, s=1, ms=0.001) with the integer (truncated) magnitude;
in particular `describeInterval("5m") = {sec:60, type:'m', count:5}`
and `intervalToMs("5m") = 300000`. -/
theorem C5_describeInterval :
    (∀ (s : String) (v : ℚ), jsStringToNumber s = .fin v → v ≠ 0 →
      describeInterval s = .ok ⟨1, "s", jsParseInt s⟩) ∧
    describeInterval "5m" = .ok ⟨60, "m", some 5⟩ ∧
    intervalToMs "5m" = .ok (some 300000) ∧
    describeInterval "42" = .ok ⟨1, "s", some 42⟩ ∧
    describeInterval "3y" = .ok ⟨31536000, "y", some 3⟩ ∧
    describeInterval "2M" = .ok ⟨2592000, "M", some 2⟩ ∧
    describeInterval "4w" = .ok ⟨604800, "w", some 4⟩ ∧
    describeInterval "7d" = .ok ⟨86400, "d", some 7⟩ ∧
    describeInterval "12h" = .ok ⟨3600, "h", some 12⟩ ∧
    describeInterval "30s" = .ok ⟨1, "s", some 30⟩ ∧
    describeInterval "250ms" = .ok ⟨mkRat 1 1000, "ms", some 250⟩ := by
  refine ⟨?_, by decide, by decide, by decide, by decide, by decide, by decide, by decide,
    by decide, by decide, by decide⟩
  intro s v hv hne
  unfold describeInterval
  rw [hv]
  simp [jsTruthy, hne]

theorem C5_witness : describeInterval "42" = .ok ⟨1, "s", jsParseInt "42"⟩ :=
  C5_describeInterval.1 "42" 42 (by decide) (by norm_num)

/-- C7 (counterexample): `"0.0"` is a well-formed pure number
(`Number("0.0") = 0`), yet `describeInterval` hard-fails on it — the
error path triggers on *falsy* `Number()` results plus regex failure,
not on "malformed (neither a pure number nor a number+unit pattern)"
as claimed. -/
theorem C7_counterexample :
    jsStringToNumber "0.0" = .fin 0 ∧ describeInterval "0.0" = .error invalidIntervalMsg := by
  decide

/-- C7 (amended): `describeInterval` errs exactly when `Number(str)` is
falsy (NaN *or zero*) and the interval regex finds no match; every
error it produces carries the exact message naming the full legal unit
set; `intervalToSeconds`/`intervalToMs` fail with that message exactly
when `describeInterval` does; and `describeTextRange` never raises —
on decomposition failure it degrades to an `invalid`-flagged result
whose display is the literal `"<from> to <to>"`. -/
theorem C7_error_paths : ∀ s : String,
    ((∃ e, describeInterval s = .error e) ↔
      (jsTruthy (jsStringToNumber s) = false ∧ findIntervalMatch s = none)) ∧
    (describeInterval s = .error invalidIntervalMsg ∨ ∃ i, describeInterval s = .ok i) ∧
    (intervalToSeconds s = .error invalidIntervalMsg ↔
      describeInterval s = .error invalidIntervalMsg) ∧
    (intervalToMs s = .error invalidIntervalMsg ↔
      describeInterval s = .error invalidIntervalMsg) ∧
    ((describeTextRange s).invalid = true →
      (describeTextRange s).display =
        some ((describeTextRange s).«from» ++ " to " ++ (describeTextRange s).«to»)) := by
  intro s
  by_cases ht : jsTruthy (jsStringToNumber s) = true
  · have hok : describeInterval s = .ok ⟨1, "s", jsParseInt s⟩ := by
      unfold describeInterval
      rw [if_pos ht]
    refine ⟨⟨?_, ?_⟩, Or.inr ⟨_, hok⟩, intervalToSeconds_error_iff s _,
      intervalToMs_error_iff s _, describeTextRange_invalid_display s⟩
    · rintro ⟨e, he⟩
      rw [hok] at he
      cases he
    · rintro ⟨hf, -⟩
      rw [ht] at hf
      cases hf
  · have ht' : jsTruthy (jsStringToNumber s) = false := by
      cases hq : jsTruthy (jsStringToNumber s)
      · rfl
      · exact absurd hq ht
    cases hf : findIntervalMatch s with
    | none =>
      have herr : describeInterval s = .error invalidIntervalMsg := by
        unfold describeInterval
        rw [if_neg ht, hf]
      exact ⟨⟨fun _ => ⟨ht', rfl⟩, fun _ => ⟨invalidIntervalMsg, herr⟩⟩, Or.inl herr,
        intervalToSeconds_error_iff s _, intervalToMs_error_iff s _,
        describeTextRange_invalid_display s⟩
    | some p =>
      obtain ⟨m, u⟩ := p
      obtain ⟨sec, hsec⟩ := Option.isSome_iff_exists.mp (findIntervalMatch_unit s m u hf)
      have hok : describeInterval s = .ok ⟨sec, u, jsParseInt m⟩ := by
        unfold describeInterval
        rw [if_neg ht, hf]
        dsimp only
        rw [hsec]
      refine ⟨⟨?_, ?_⟩, Or.inr ⟨_, hok⟩, intervalToSeconds_error_iff s _,
        intervalToMs_error_iff s _, describeTextRange_invalid_display s⟩
      · rintro ⟨e, he⟩
        rw [hok] at he
        cases he
      · rintro ⟨-, hnone⟩
        exact Option.noConfusion hnone

theorem C7_witness :
    (describeTextRange "##bad").display =
      some ((describeTextRange "##bad").«from» ++ " to " ++ (describeTextRange "##bad").«to») :=
  (C7_error_paths "##bad").2.2.2.2 (by decide)

/-- C10 (confirmed): the interval pattern is unanchored and its
magnitude group admits a sign and a fraction, so `describeInterval`
succeeds on inputs outside the documented `⟨number⟩⟨unit⟩` form: a
garbage prefix (`"xx5m"`), a negative magnitude (`"-5m"`, count -5),
and a fractional magnitude (`"1.5h"`, count truncated to 1). -/
theorem C10_interval_regex_lax :
    describeInterval "-5m" = .ok ⟨60, "m", some (-5)⟩ ∧
    describeInterval "xx5m" = .ok ⟨60, "m", some 5⟩ ∧
    describeInterval "1.5h" = .ok ⟨3600, "h", some 1⟩ := by
  decide

/-- C6 (confirmed): for every range, positive resolution, and optional
`lowLimitInterval` whose parse yields a (non-NaN) bound `lowMs`,
`calculateInterval` succeeds and its `intervalMs` equals
`max(roundInterval((to - from) / resolution), lowMs)` (the bound
defaults to 1 ms when absent), hence is either a ladder member or the
caller-supplied lower bound, and is never below the bound. -/
theorem C6_calculateInterval (fromMs toMs resolution : ℚ) (low : Option String) (lowMs : ℚ)
    (hres : 0 < resolution) (hlow : lowLimitMsOf low = .ok (some lowMs)) :
    ∃ r : IntervalValues,
      calculateInterval fromMs toMs resolution low = .ok r ∧
      r.intervalMs = max (roundInterval ((toMs - fromMs) / resolution)) lowMs ∧
      (r.intervalMs ∈ ladderValues ∨ r.intervalMs = lowMs) ∧
      lowMs ≤ r.intervalMs := by
  have hdiv : ratDiv (ratSub toMs fromMs) resolution = (toMs - fromMs) / resolution := by
    rw [ratSub_eq, ratDiv_eq]
  unfold calculateInterval
  rw [hlow]
  dsimp only
  rw [hdiv]
  by_cases hgt : lowMs > roundInterval ((toMs - fromMs) / resolution)
  · rw [if_pos hgt]
    exact ⟨_, rfl, by rw [max_eq_right (le_of_lt hgt)], Or.inr rfl, le_refl _⟩
  · rw [if_neg hgt]
    exact ⟨_, rfl, by rw [max_eq_left (le_of_not_lt hgt)],
      Or.inl (roundInterval_mem_ladderValues _), le_of_not_lt hgt⟩

theorem C6_witness :
    ∃ r : IntervalValues,
      calculateInterval 0 3600000 100 (some "1m") = .ok r ∧
      r.intervalMs = max (roundInterval ((3600000 - 0) / 100)) 60000 ∧
      (r.intervalMs ∈ ladderValues ∨ r.intervalMs = 60000) ∧
      (60000 : ℚ) ≤ r.intervalMs :=
  C6_calculateInterval 0 3600000 100 (some "1m") 60000 (by norm_num) (by decide)

/-- C8 (confirmed): `convertRawToRange` resolves `raw.from` with
`roundUp = false` and `raw.to` with `roundUp = true`, keeps the
original `raw` pair whenever either side is a date-math/relative
string, and replaces `raw` with the two resolved instants otherwise —
universally in the injected date-math collaborator (`parse` =
`dateTimeParse` with the timezone/fiscal options folded in, `isMath` =
`dateMath.isMathString`). -/
theorem C8_convertRawToRange :
    ∀ (parse : RawTimeValue → Bool → Int) (isMath : RawTimeValue → Bool) (raw : RawTimeRange),
      (convertRawToRange parse isMath raw).«from» = parse raw.«from» false ∧
      (convertRawToRange parse isMath raw).«to» = parse raw.«to» true ∧
      ((isMath raw.«from» || isMath raw.«to») = true →
        (convertRawToRange parse isMath raw).raw = raw) ∧
      ((isMath raw.«from» || isMath raw.«to») = false →
        (convertRawToRange parse isMath raw).raw =
          ⟨.dt (parse raw.«from» false), .dt (parse raw.«to» true)⟩) := by
  intro parse isMath raw
  by_cases h : (isMath raw.«from» || isMath raw.«to») = true
  · have hconv : convertRawToRange parse isMath raw =
        ⟨parse raw.«from» false, parse raw.«to» true, raw⟩ := by
      unfold convertRawToRange
      dsimp only
      rw [if_pos h]
    rw [hconv]
    exact ⟨rfl, rfl, fun _ => rfl, fun hf => absurd h (by simp [hf])⟩
  · have hconv : convertRawToRange parse isMath raw =
        ⟨parse raw.«from» false, parse raw.«to» true,
         ⟨.dt (parse raw.«from» false), .dt (parse raw.«to» true)⟩⟩ := by
      unfold convertRawToRange
      dsimp only
      rw [if_neg h]
    rw [hconv]
    exact ⟨rfl, rfl, fun ht => absurd ht h, fun _ => rfl⟩

theorem C8_witness :
    (convertRawToRange (fun _ r => if r then 2 else 1)
        (fun v => match v with | .str _ => true | .dt _ => false)
        ⟨.str "now-1h", .str "now"⟩).raw = ⟨.str "now-1h", .str "now"⟩ :=
  (C8_convertRawToRange _ _ _).2.2.1 rfl
